import Mathlib

/-!
# Verification of the gradebook application's session store and login logic

Shallow embedding of `src/app.py` (Ivan-Hnatiuk/Lab_web_development).

The Python module keeps an in-process session store `SESSIONS : dict[str, dict]`.
We model the store as a function from token strings to optional session records,
which matches the dict's one-value-per-key semantics exactly.  Clock readings
(`int(time.time())`) are passed in as explicit `Nat` arguments; the token from
`secrets.token_urlsafe(32)` is passed in as an explicit argument (the generator
always returns a non-empty URL-safe string).
-/

set_option maxHeartbeats 1000000

namespace Gradebook

/-- A session record, as stored in `SESSIONS[session_id]` by `create_session`
(src/app.py lines 57-62): keys `user_id`, `login`, `created_at`, `expires_at`. -/
structure SessionData where
  user_id : Nat
  login : String
  created_at : Nat
  expires_at : Nat
deriving DecidableEq, Repr

/-- The in-memory session store `SESSIONS : dict[str, dict]` (src/app.py line 15),
modelled as a map from session-id strings to optional records. -/
def Store : Type := String → Option SessionData

/-- `SESSION_TTL_SECONDS = 60 * 60` (src/app.py line 16). -/
def SESSION_TTL_SECONDS : Nat := 60 * 60

/-- `_cleanup_expired_sessions` (src/app.py lines 39-47): removes every entry
whose `expires_at` is strictly less than `now = int(time.time())`. -/
def cleanupExpiredSessions (now : Nat) (s : Store) : Store :=
  fun sid =>
    match s sid with
    | none => none
    | some data => if data.expires_at < now then none else some data

/-- `create_session(user_id, login)` (src/app.py lines 50-63): runs the cleanup,
generates a token (passed in here as `token`), inserts a fresh record with
`created_at = now` and `expires_at = now + SESSION_TTL_SECONDS`, and returns
the token together with the updated store. -/
def createSession (user_id : Nat) (login : String) (token : String) (now : Nat)
    (s : Store) : String × Store :=
  let s1 := cleanupExpiredSessions now s
  (token,
    fun sid =>
      if sid = token then
        some { user_id := user_id, login := login, created_at := now,
               expires_at := now + SESSION_TTL_SECONDS }
      else s1 sid)

/-- `get_session(session_id)` (src/app.py lines 66-80): returns `None` at once
when the id is absent or empty (`if not session_id`), otherwise sweeps, then
looks the id up; an entry with `expires_at < now` is popped and `None` is
returned; otherwise `expires_at` is set to `now + SESSION_TTL_SECONDS` in place
and the record is returned.  The pair is (returned value, store afterwards). -/
def getSession (sessionId : Option String) (now : Nat) (s : Store) :
    Option SessionData × Store :=
  match sessionId with
  | none => (none, s)
  | some sid =>
    if sid = "" then (none, s)
    else
      let s1 := cleanupExpiredSessions now s
      match s1 sid with
      | none => (none, s1)
      | some data =>
        if data.expires_at < now then
          (none, fun k => if k = sid then none else s1 k)
        else
          let data2 : SessionData := { data with expires_at := now + SESSION_TTL_SECONDS }
          (some data2, fun k => if k = sid then some data2 else s1 k)

/-- `destroy_session(session_id)` (src/app.py lines 83-87): no-op when the id is
absent or empty, otherwise `SESSIONS.pop(session_id, None)`. -/
def destroySession (sessionId : Option String) (s : Store) : Store :=
  match sessionId with
  | none => s
  | some sid => if sid = "" then s else fun k => if k = sid then none else s k

/-- A sequence of authenticated requests: look the token up at each clock
reading in turn, carrying the store along; `true` iff every lookup in the
sequence succeeded. -/
def lookupChain (sid : String) (times : List Nat) (s : Store) : Bool :=
  match times with
  | [] => true
  | t :: rest =>
    match getSession (some sid) t s with
    | (none, _) => false
    | (some _, s2) => lookupChain sid rest s2

/-! ## Password hashing (werkzeug.security), modelled from the spec

`src/app.py` calls `generate_password_hash` / `check_password_hash` from the
werkzeug library, whose code is not part of this repository. -/

/-- Split a character list at every `'$'` (the separator of werkzeug's
`method$salt$hash` format); always returns at least one piece. -/
def splitOnDollar : List Char → List (List Char)
  | [] => [[]]
  | c :: rest =>
    match splitOnDollar rest with
    | [] => [[c]]
    | h :: t => if c = '$' then [] :: h :: t else (c :: h) :: t

/-- Re-join pieces with `'$'`; inverse of `splitOnDollar`. -/
def joinDollar : List (List Char) → List Char
  | [] => []
  | [x] => x
  | x :: y :: rest => x ++ '$' :: joinDollar (y :: rest)

/-- The algorithm identifier with its cost parameters, as embedded at the front
of every produced hash string. -/
def hashMethod : String := "scrypt:32768:8:1"

/-- Modelled from the spec: the one-way digest inside the stored value.
werkzeug's actual digest (scrypt/pbkdf2) is not in this repository; the spec
treats it as an ideal collision-free primitive (`verify(wrong, hash(pt))` is
false for every `wrong ≠ pt`), so it is modelled as an injective function of
the plaintext. -/
def pwDigest (_salt pw : List Char) : List Char := pw

/-- Modelled from the spec: `generate_password_hash(plaintext)` (called by
`create_user`, src/app.py line 171, from werkzeug, not in this repository)
returns a deterministic `method$salt$digest` string embedding the algorithm
identifier, cost parameter, per-invocation random salt (passed explicitly
here) and digest. -/
def generate_password_hash (salt plaintext : String) : String :=
  String.mk (hashMethod.data ++ '$' :: salt.data ++ '$' ::
    pwDigest salt.data plaintext.data)

/-- Modelled from the spec: `check_password_hash(pwhash, password)` (called at
login, src/app.py lines 188 and 244, from werkzeug, not in this repository)
splits the stored value into `method$salt$digest` (at most two splits, so the
digest may itself contain `'$'`), recomputes the digest with the embedded
parameters and compares; any string that does not parse yields `false` rather
than an exception. -/
def check_password_hash (pwhash password : String) : Bool :=
  match splitOnDollar pwhash.data with
  | _method :: salt :: h1 :: hrest =>
    pwDigest salt password.data == joinDollar (h1 :: hrest)
  | _ => false

/-! ## Login endpoint and grade validation -/

/-- A row of the `users` table as fetched by the login handler
(src/app.py lines 240-243). -/
structure UserRow where
  id : Nat
  login : String
  password_hash : String

/-- The visible outcome of a POST to `/login` (src/app.py lines 236-260):
either a redirect carrying the new session cookie, or the re-rendered login
form with an optional error message. -/
inductive LoginResponse where
  | redirectWithSessionCookie (session_id : String)
  | renderLoginForm (error : Option String)
deriving DecidableEq

/-- The generic failure message of the login form (src/app.py line 245). -/
def loginErrorMessage : String := "Невірний логін або пароль."

/-- The POST branch of `login` (src/app.py lines 236-257): the `users` row
fetched for the submitted login name is passed in as `user` (the result of
`fetch_one`); `if not user or not check_password_hash(...)` sets the single
generic error, otherwise a session is created and a redirect with the cookie
is returned. -/
def loginPost (user : Option UserRow) (password token : String) (now : Nat)
    (s : Store) : LoginResponse × Store :=
  match user with
  | none => (LoginResponse.renderLoginForm (some loginErrorMessage), s)
  | some u =>
    if check_password_hash u.password_hash password then
      let res := createSession u.id u.login token now s
      (LoginResponse.redirectWithSessionCookie res.1, res.2)
    else (LoginResponse.renderLoginForm (some loginErrorMessage), s)

/-- Python's built-in `round`: round half to even. The submitted grade is an
exact decimal, represented here as a rational. -/
def pythonRound (q : ℚ) : Int :=
  let f := ⌊q⌋
  if 1 / 2 < q - f then f + 1
  else if q - f < 1 / 2 then f
  else if f % 2 = 0 then f else f + 1

/-- The outcome of a grade submission through `add_grade`. -/
inductive AddGradeOutcome where
  | validationError (msg : String)
  | insertAndRedirect (id_student id_course value : Int)
deriving DecidableEq

/-- The validation tail of `add_grade` (src/app.py lines 487-499), reached
once the ids parsed as integers and `float(value_raw)` succeeded: the range
check `0 <= value <= 100` re-renders the form with an inline message on
failure, otherwise `round(value)` is inserted and the request redirects.
`float(value_raw)` is modelled as the exact rational value of the submitted
decimal (the IEEE double of 95.6 is within 2^-46 of it and rounds the same). -/
def addGradeSubmit (student_id_int course_id_int : Int) (value : ℚ) :
    AddGradeOutcome :=
  if ¬ (0 ≤ value ∧ value ≤ 100) then
    AddGradeOutcome.validationError "Оцінка повинна бути в діапазоні від 0 до 100."
  else
    AddGradeOutcome.insertAndRedirect student_id_int course_id_int (pythonRound value)

end Gradebook

namespace Gradebook

/-- Pointwise behaviour of the sweep: an entry survives exactly when its
`expires_at` has not strictly passed. -/
theorem cleanup_apply (now : Nat) (s : Store) (k : String) :
    cleanupExpiredSessions now s k =
      match s k with
      | none => none
      | some d => if d.expires_at < now then none else some d := rfl

/-- A present, unexpired record is found by `getSession`, which renews its
`expires_at` to `now + SESSION_TTL_SECONDS` both in the returned value and in
the store. -/
theorem getSession_renews (sid : String) (now : Nat) (s : Store) (d : SessionData)
    (hsid : sid ≠ "") (hd : s sid = some d) (hexp : ¬ d.expires_at < now) :
    getSession (some sid) now s =
      (some { d with expires_at := now + SESSION_TTL_SECONDS },
       fun k => if k = sid then some { d with expires_at := now + SESSION_TTL_SECONDS }
                else cleanupExpiredSessions now s k) := by
  have h1 : cleanupExpiredSessions now s sid = some d := by
    rw [cleanup_apply, hd]
    exact if_neg hexp
  simp only [getSession, if_neg hsid, h1, if_neg hexp]

/-- C9: lookup with an absent or empty token returns `none` immediately, leaving
the store exactly as it was — no sweep runs and the store is never consulted
(the result is the same for every store). -/
theorem getSession_empty_token (now : Nat) (s : Store) :
    getSession none now s = (none, s) ∧ getSession (some "") now s = (none, s) := by
  constructor
  · rfl
  · simp [getSession]

/-- C1: for every user id and login, `create_session` returns a token whose
immediate lookup (same clock reading, no intervening destroy) yields a record
with exactly the `user_id` and `login` passed to `create_session`. -/
theorem createSession_then_getSession (user_id : Nat) (login token : String)
    (now : Nat) (s : Store) (h : token ≠ "") :
    ∃ d, (getSession (some (createSession user_id login token now s).1) now
            (createSession user_id login token now s).2).1 = some d ∧
          d.user_id = user_id ∧ d.login = login := by
  have hins : (createSession user_id login token now s).2 token =
      some { user_id := user_id, login := login, created_at := now,
             expires_at := now + SESSION_TTL_SECONDS } := by
    simp [createSession]
  have hexp : ¬ (now + SESSION_TTL_SECONDS < now) := by omega
  refine ⟨{ user_id := user_id, login := login, created_at := now,
            expires_at := now + SESSION_TTL_SECONDS }, ?_, rfl, rfl⟩
  have := getSession_renews token now (createSession user_id login token now s).2
    { user_id := user_id, login := login, created_at := now,
      expires_at := now + SESSION_TTL_SECONDS } h hins hexp
  rw [show (createSession user_id login token now s).1 = token from rfl, this]

/-- C1 witness: evaluated at user id 1, login "admin", token "tok", time 5,
starting from the empty store. -/
theorem createSession_then_getSession_witness :
    ∃ d, (getSession (some (createSession 1 "admin" "tok" 5 (fun _ => none)).1) 5
            (createSession 1 "admin" "tok" 5 (fun _ => none)).2).1 = some d ∧
          d.user_id = 1 ∧ d.login = "admin" :=
  createSession_then_getSession 1 "admin" "tok" 5 (fun _ => none) (by decide)

/-- C10: expiry comparisons are strict (`expires_at < now` in both
`_cleanup_expired_sessions` and `get_session`): a record whose `expires_at`
equals the current time survives the sweep and is still returned and renewed by
lookup; the sweep drops a record exactly when the clock strictly exceeds its
`expires_at`. -/
theorem expiry_boundary_strict (sid : String) (s : Store) (d : SessionData)
    (hd : s sid = some d) :
    cleanupExpiredSessions d.expires_at s sid = some d
    ∧ (sid ≠ "" → (getSession (some sid) d.expires_at s).1 =
        some { d with expires_at := d.expires_at + SESSION_TTL_SECONDS })
    ∧ (∀ now : Nat, cleanupExpiredSessions now s sid = none ↔ d.expires_at < now) := by
  refine ⟨?_, ?_, ?_⟩
  · rw [cleanup_apply, hd]
    exact if_neg (lt_irrefl _)
  · intro hsid
    rw [getSession_renews sid d.expires_at s d hsid hd (lt_irrefl _)]
  · intro now
    rw [cleanup_apply, hd]
    by_cases hlt : d.expires_at < now
    · simp [hlt]
    · simp [hlt]

/-- Inverting the sweep: an entry present afterwards was present before and was
not expired. -/
theorem cleanup_eq_some (now : Nat) (s : Store) (k : String) (d : SessionData)
    (h : cleanupExpiredSessions now s k = some d) :
    s k = some d ∧ ¬ d.expires_at < now := by
  rw [cleanup_apply] at h
  split at h
  · cases h
  · next d0 heq =>
    split at h
    · cases h
    · next hlt =>
      cases h
      exact ⟨heq, hlt⟩

/-- The sweep removes a record whose `expires_at` lies strictly in the past. -/
theorem cleanup_eq_none_of_lt (now : Nat) (s : Store) (k : String) (d : SessionData)
    (hd : s k = some d) (hlt : d.expires_at < now) :
    cleanupExpiredSessions now s k = none := by
  rw [cleanup_apply, hd]
  exact if_pos hlt

/-- When the sweep has dropped the looked-up id, `getSession` yields `none` and
leaves the swept store. -/
theorem getSession_of_cleanup_none (sid : String) (now : Nat) (s : Store)
    (hsid : sid ≠ "") (hc : cleanupExpiredSessions now s sid = none) :
    getSession (some sid) now s = (none, cleanupExpiredSessions now s) := by
  simp only [getSession, if_neg hsid, hc]

/-- Inverting a successful lookup: the record returned is the stored one with
its expiry renewed to `now + SESSION_TTL_SECONDS`. -/
theorem getSession_fst_eq_some (sid : String) (now : Nat) (s : Store) (d' : SessionData)
    (h : (getSession (some sid) now s).1 = some d') :
    ∃ d, s sid = some d ∧ ¬ d.expires_at < now ∧
         d' = { d with expires_at := now + SESSION_TTL_SECONDS } := by
  by_cases hsid : sid = ""
  · rw [hsid] at h
    simp [getSession] at h
  · cases hc : cleanupExpiredSessions now s sid with
    | none =>
      rw [getSession_of_cleanup_none sid now s hsid hc] at h
      cases h
    | some data =>
      obtain ⟨hs, hnlt⟩ := cleanup_eq_some now s sid data hc
      rw [getSession_renews sid now s data hsid hs hnlt] at h
      exact ⟨data, hs, hnlt, (Option.some.inj h).symm⟩

/-- C3: `get_session` never hands back a stale record — any record it returns
has `expires_at = now + SESSION_TTL_SECONDS`, never in the past; and a record
whose last touch lies more than `SESSION_TTL_SECONDS` before `now` is invisible
to lookup and is removed by the sweep. -/
theorem lookup_never_stale :
    (∀ (sid : String) (now : Nat) (s : Store) (d' : SessionData),
        (getSession (some sid) now s).1 = some d' → ¬ d'.expires_at < now)
    ∧ (∀ (sid : String) (s : Store) (d : SessionData) (t0 now : Nat),
        s sid = some d → d.expires_at = t0 + SESSION_TTL_SECONDS →
        t0 + SESSION_TTL_SECONDS < now →
        (getSession (some sid) now s).1 = none
        ∧ cleanupExpiredSessions now s sid = none) := by
  constructor
  · intro sid now s d' h
    obtain ⟨d, _, _, rfl⟩ := getSession_fst_eq_some sid now s d' h
    simp only []
    omega
  · intro sid s d t0 now hd hexp hlate
    have hlt : d.expires_at < now := by omega
    have hc : cleanupExpiredSessions now s sid = none :=
      cleanup_eq_none_of_lt now s sid d hd hlt
    refine ⟨?_, hc⟩
    by_cases hsid : sid = ""
    · rw [hsid]; simp [getSession]
    · rw [getSession_of_cleanup_none sid now s hsid hc]

/-- C3 witness: a record last touched at time 0 (so `expires_at = 3600`) looked
up at time 4000 yields `none` and is gone from the store; and the renewal case
instantiated at time 4000 on a fresh record. -/
theorem lookup_never_stale_witness :
    (¬ (⟨1, "u", 3900, 4000 + SESSION_TTL_SECONDS⟩ : SessionData).expires_at < 4000)
    ∧ ((getSession (some "a") 4000
          (fun k => if k = "a" then some ⟨1, "u", 0, SESSION_TTL_SECONDS⟩ else none)).1 = none
        ∧ cleanupExpiredSessions 4000
          (fun k => if k = "a" then some ⟨1, "u", 0, SESSION_TTL_SECONDS⟩ else none) "a" = none) :=
  ⟨lookup_never_stale.1 "b" 4000
      (fun k => if k = "b" then some ⟨1, "u", 3900, 3900 + SESSION_TTL_SECONDS⟩ else none)
      ⟨1, "u", 3900, 4000 + SESSION_TTL_SECONDS⟩ (by decide),
   lookup_never_stale.2 "a"
      (fun k => if k = "a" then some ⟨1, "u", 0, SESSION_TTL_SECONDS⟩ else none)
      ⟨1, "u", 0, SESSION_TTL_SECONDS⟩ 0 4000 (by decide) rfl (by decide)⟩

/-- C6: after `destroy_session(token)` a lookup of that token yields `none`;
destroy is idempotent, a destroy of an absent token leaves the store unchanged,
and a destroy of an absent or empty token is a no-op. -/
theorem destroy_then_lookup_none :
    (∀ (sid : String) (now : Nat) (s : Store),
        (getSession (some sid) now (destroySession (some sid) s)).1 = none)
    ∧ (∀ (x : Option String) (s : Store),
        destroySession x (destroySession x s) = destroySession x s)
    ∧ (∀ (sid : String) (s : Store), s sid = none → destroySession (some sid) s = s)
    ∧ (∀ s : Store, destroySession none s = s ∧ destroySession (some "") s = s) := by
  refine ⟨?_, ?_, ?_, ?_⟩
  · intro sid now s
    by_cases hsid : sid = ""
    · rw [hsid]; simp [getSession]
    · have hgone : destroySession (some sid) s sid = none := by
        simp [destroySession, if_neg hsid]
      have hc : cleanupExpiredSessions now (destroySession (some sid) s) sid = none := by
        rw [cleanup_apply, hgone]
      rw [getSession_of_cleanup_none sid now _ hsid hc]
  · intro x s
    cases x with
    | none => rfl
    | some sid =>
      by_cases hsid : sid = ""
      · simp [destroySession, hsid]
      · funext k
        simp only [destroySession, if_neg hsid]
        by_cases hk : k = sid <;> simp [hk]
  · intro sid s h
    by_cases hsid : sid = ""
    · simp [destroySession, hsid]
    · funext k
      simp only [destroySession, if_neg hsid]
      by_cases hk : k = sid
      · rw [if_pos hk, hk, h]
      · rw [if_neg hk]
  · intro s
    exact ⟨rfl, by simp [destroySession]⟩

/-- C6 witness: destroying "a" makes its lookup return `none`, and destroying
the absent token "x" in the empty store changes nothing. -/
theorem destroy_then_lookup_none_witness :
    (getSession (some "a") 0 (destroySession (some "a")
        (fun k => if k = "a" then some ⟨1, "u", 0, 100⟩ else none))).1 = none
    ∧ destroySession (some "x") (fun _ => none) = (fun _ => none : Store) :=
  ⟨destroy_then_lookup_none.1 "a" 0
      (fun k => if k = "a" then some ⟨1, "u", 0, 100⟩ else none),
   destroy_then_lookup_none.2.2.1 "x" (fun _ => none) rfl⟩

/-- C10 witness: a record with `expires_at = 100` looked at exactly at time 100
is kept, renewed to 3700, and is swept precisely when the clock passes 100. -/
theorem expiry_boundary_strict_witness :
    cleanupExpiredSessions (100 : Nat)
        (fun k => if k = "a" then some ⟨1, "u", 0, 100⟩ else none) "a"
        = some ⟨1, "u", 0, 100⟩
    ∧ ("a" ≠ "" → (getSession (some "a") (100 : Nat)
        (fun k => if k = "a" then some ⟨1, "u", 0, 100⟩ else none)).1 =
        some ⟨1, "u", 0, 100 + SESSION_TTL_SECONDS⟩)
    ∧ (∀ now : Nat, cleanupExpiredSessions now
        (fun k => if k = "a" then some ⟨1, "u", 0, 100⟩ else none) "a" = none
        ↔ 100 < now) :=
  expiry_boundary_strict "a" (fun k => if k = "a" then some ⟨1, "u", 0, 100⟩ else none)
    ⟨1, "u", 0, 100⟩ (by simp)

/-- C5 amended: `create_session` and a non-empty-token `get_session` both run
the sweep, so after them the store holds no record that was already expired at
the operation's clock reading; `destroy_session` runs no sweep — it only
removes its own token and leaves every other entry exactly as it was. -/
theorem sweep_on_create_and_lookup_only :
    (∀ (user_id : Nat) (login token : String) (now : Nat) (s : Store)
        (k : String) (d : SessionData),
        (createSession user_id login token now s).2 k = some d → ¬ d.expires_at < now)
    ∧ (∀ (sid : String) (now : Nat) (s : Store) (k : String) (d : SessionData),
        sid ≠ "" →
        (getSession (some sid) now s).2 k = some d → ¬ d.expires_at < now)
    ∧ (∀ (sid k : String) (s : Store), k ≠ sid →
        destroySession (some sid) s k = s k) := by
  refine ⟨?_, ?_, ?_⟩
  · intro user_id login token now s k d hk
    simp only [createSession] at hk
    by_cases hkt : k = token
    · rw [if_pos hkt] at hk
      cases hk
      simp only [SESSION_TTL_SECONDS]
      omega
    · rw [if_neg hkt] at hk
      exact (cleanup_eq_some now s k d hk).2
  · intro sid now s k d hsid hk
    cases hc : cleanupExpiredSessions now s sid with
    | none =>
      rw [getSession_of_cleanup_none sid now s hsid hc] at hk
      exact (cleanup_eq_some now s k d hk).2
    | some data =>
      obtain ⟨hs, hnlt⟩ := cleanup_eq_some now s sid data hc
      rw [getSession_renews sid now s data hsid hs hnlt] at hk
      by_cases hkt : k = sid
      · simp only [if_pos hkt] at hk
        cases hk
        simp only [SESSION_TTL_SECONDS]
        omega
      · simp only [if_neg hkt] at hk
        exact (cleanup_eq_some now s k d hk).2
  · intro sid k s hks
    by_cases hsid : sid = ""
    · simp [destroySession, hsid]
    · simp [destroySession, if_neg hsid, hks]

/-- C5 witness: create at time 5 leaves only unexpired records; a lookup of "a"
at time 5 leaves only unexpired records; destroy of "a" leaves the other key
"b" untouched. -/
theorem sweep_on_create_and_lookup_only_witness :
    (¬ (⟨1, "u", 5, 5 + SESSION_TTL_SECONDS⟩ : SessionData).expires_at < 5)
    ∧ (¬ (⟨2, "v", 0, 5 + SESSION_TTL_SECONDS⟩ : SessionData).expires_at < 5)
    ∧ destroySession (some "a") (fun _ => none) "b" = (fun _ => none : Store) "b" :=
  ⟨sweep_on_create_and_lookup_only.1 1 "u" "tok" 5 (fun _ => none) "tok"
      ⟨1, "u", 5, 5 + SESSION_TTL_SECONDS⟩ (by simp [createSession]),
   sweep_on_create_and_lookup_only.2.1 "a" 5
      (fun k => if k = "a" then some ⟨2, "v", 0, 7⟩ else none) "a"
      ⟨2, "v", 0, 5 + SESSION_TTL_SECONDS⟩ (by decide)
      (by rw [getSession_renews "a" 5 _ ⟨2, "v", 0, 7⟩ (by decide) (by simp) (by decide)]
          simp),
   sweep_on_create_and_lookup_only.2.2 "a" "b" (fun _ => none) (by decide)⟩

/-- C5 counterexample: the store holds the record "a" with `expires_at = 0`,
long past at an operation moment `now = 10`; `destroy_session("b")` completes
and the expired record is still present — destroy performs no sweep. -/
theorem destroySession_no_sweep_counterexample :
    destroySession (some "b")
        (fun k => if k = "a" then some (⟨1, "u", 0, 0⟩ : SessionData) else none) "a"
      = some ⟨1, "u", 0, 0⟩
    ∧ (⟨1, "u", 0, 0⟩ : SessionData).expires_at < 10 := by
  constructor
  · simp [destroySession]
  · decide

/-- A session whose record shows a last touch at `t0` survives any sequence of
lookups whose gaps never exceed `SESSION_TTL_SECONDS / 2`. -/
theorem lookupChain_of_gaps_le (sid : String) (times : List Nat) :
    ∀ (t0 : Nat) (s : Store) (d : SessionData), sid ≠ "" →
      s sid = some d → d.expires_at = t0 + SESSION_TTL_SECONDS →
      List.Chain (fun a b => a ≤ b ∧ b ≤ a + SESSION_TTL_SECONDS / 2) t0 times →
      lookupChain sid times s = true := by
  induction times with
  | nil => intro t0 s d _ _ _ _; rfl
  | cons t rest ih =>
    intro t0 s d hsid hd hexp hchain
    cases hchain with
    | cons hab hrest =>
      have hnlt : ¬ d.expires_at < t := by
        have h2 : t ≤ t0 + SESSION_TTL_SECONDS / 2 := hab.2
        rw [hexp]
        simp only [SESSION_TTL_SECONDS] at *
        omega
      have hren := getSession_renews sid t s d hsid hd hnlt
      rw [lookupChain, hren]
      exact ih t _ { d with expires_at := t + SESSION_TTL_SECONDS } hsid
        (by simp) rfl hrest

/-- C2 amended: a successful `get_session` sets the record's `expires_at` to
`now + SESSION_TTL_SECONDS`, which never decreases it (for a record last
touched no later than `now`) but does not strictly increase it when the clock
reading is unchanged since the last touch; a session looked up at least once
every `SESSION_TTL_SECONDS / 2` never expires. -/
theorem getSession_renewal_and_keepalive :
    (∀ (sid : String) (s : Store) (d : SessionData) (now : Nat),
        sid ≠ "" → s sid = some d → ¬ d.expires_at < now →
        ∃ d', (getSession (some sid) now s).1 = some d' ∧
              d'.expires_at = now + SESSION_TTL_SECONDS ∧
              (d.expires_at ≤ now + SESSION_TTL_SECONDS →
                d.expires_at ≤ d'.expires_at))
    ∧ (∀ (sid : String) (s : Store) (d : SessionData) (t0 : Nat) (times : List Nat),
        sid ≠ "" → s sid = some d → d.expires_at = t0 + SESSION_TTL_SECONDS →
        List.Chain (fun a b => a ≤ b ∧ b ≤ a + SESSION_TTL_SECONDS / 2) t0 times →
        lookupChain sid times s = true) := by
  constructor
  · intro sid s d now hsid hd hnlt
    refine ⟨{ d with expires_at := now + SESSION_TTL_SECONDS }, ?_, rfl, ?_⟩
    · rw [getSession_renews sid now s d hsid hd hnlt]
    · intro h
      exact h
  · intro sid s d t0 times hsid hd hexp hchain
    exact lookupChain_of_gaps_le sid times t0 s d hsid hd hexp hchain

/-- C2 counterexample: create the session "a" at time 0 (`expires_at = 3600`)
and look it up successfully at the same clock reading; the lookup succeeds but
`expires_at` is 3600 before and after — it did not strictly increase. -/
theorem getSession_no_strict_increase_counterexample :
    (createSession 7 "admin" "a" 0 (fun _ => none)).2 "a"
        = some ⟨7, "admin", 0, SESSION_TTL_SECONDS⟩
    ∧ (getSession (some "a") 0 ((createSession 7 "admin" "a" 0 (fun _ => none)).2)).1
        = some ⟨7, "admin", 0, SESSION_TTL_SECONDS⟩ := by
  constructor
  · simp [createSession]
  · rw [getSession_renews "a" 0 _ ⟨7, "admin", 0, SESSION_TTL_SECONDS⟩
        (by decide) (by simp [createSession]) (by decide)]
    rfl

/-- C2 witness: the renewal clause at time 7 on a record expiring at 10, and a
keep-alive chain of lookups at times 5, 1805, 3605 on a session created at 0. -/
theorem getSession_renewal_and_keepalive_witness :
    (∃ d', (getSession (some "a") 7
          (fun k => if k = "a" then some ⟨1, "u", 0, 10⟩ else none)).1 = some d' ∧
        d'.expires_at = 7 + SESSION_TTL_SECONDS ∧
        (10 ≤ 7 + SESSION_TTL_SECONDS → 10 ≤ d'.expires_at))
    ∧ lookupChain "a" [5, 1805, 3605]
        (fun k => if k = "a" then some ⟨1, "u", 0, SESSION_TTL_SECONDS⟩ else none)
        = true :=
  ⟨getSession_renewal_and_keepalive.1 "a"
      (fun k => if k = "a" then some ⟨1, "u", 0, 10⟩ else none)
      ⟨1, "u", 0, 10⟩ 7 (by decide) (by simp) (by decide),
   getSession_renewal_and_keepalive.2 "a"
      (fun k => if k = "a" then some ⟨1, "u", 0, SESSION_TTL_SECONDS⟩ else none)
      ⟨1, "u", 0, SESSION_TTL_SECONDS⟩ 0 [5, 1805, 3605]
      (by decide) (by simp) rfl
      (List.Chain.cons (by decide)
        (List.Chain.cons (by decide)
          (List.Chain.cons (by decide) List.Chain.nil)))⟩

/-- `splitOnDollar` always yields at least one piece. -/
theorem splitOnDollar_ne_nil (l : List Char) : splitOnDollar l ≠ [] := by
  cases l with
  | nil => simp [splitOnDollar]
  | cons c rest =>
    simp only [splitOnDollar]
    cases h : splitOnDollar rest with
    | nil => simp
    | cons h1 t => by_cases hc : c = '$' <;> simp [hc]

/-- Splitting a list whose first `'$'` follows the dollar-free prefix `a`
yields `a` and the split of the remainder. -/
theorem splitOnDollar_append (a b : List Char) (ha : '$' ∉ a) :
    splitOnDollar (a ++ '$' :: b) = a :: splitOnDollar b := by
  induction a with
  | nil =>
    cases hb : splitOnDollar b with
    | nil => exact absurd hb (splitOnDollar_ne_nil b)
    | cons h t => simp [splitOnDollar, hb]
  | cons c a ih =>
    have hc : ¬ c = '$' := by
      intro h
      exact ha (by rw [h]; exact List.mem_cons_self _ _)
    have ha' : '$' ∉ a := fun h => ha (List.mem_cons_of_mem _ h)
    rw [List.cons_append, splitOnDollar, ih ha']
    show (if c = '$' then [] :: a :: splitOnDollar b
          else (c :: a) :: splitOnDollar b) = (c :: a) :: splitOnDollar b
    rw [if_neg hc]

/-- Re-joining the split pieces recovers the original list. -/
theorem joinDollar_splitOnDollar (l : List Char) :
    joinDollar (splitOnDollar l) = l := by
  induction l with
  | nil => rfl
  | cons c rest ih =>
    simp only [splitOnDollar]
    cases hr : splitOnDollar rest with
    | nil => exact absurd hr (splitOnDollar_ne_nil rest)
    | cons h t =>
      show joinDollar (if c = '$' then [] :: h :: t else (c :: h) :: t) = c :: rest
      by_cases hc : c = '$'
      · rw [if_pos hc]
        simp only [joinDollar, List.nil_append]
        rw [← hr, ih, hc]
      · rw [if_neg hc]
        cases t with
        | nil =>
          have hh : h = rest := by rw [hr] at ih; exact ih
          simp only [joinDollar]
          rw [hh]
        | cons y t2 =>
          have hh : h ++ '$' :: joinDollar (y :: t2) = rest := by
            rw [hr] at ih
            exact ih
          simp only [joinDollar, List.cons_append]
          rw [hh]

/-- Splitting a produced hash exposes exactly the method, the salt, and the
split of the digest. -/
theorem splitOnDollar_generate (salt pt : String) (hs : '$' ∉ salt.data) :
    splitOnDollar (generate_password_hash salt pt).data =
      hashMethod.data :: salt.data :: splitOnDollar pt.data := by
  show splitOnDollar (hashMethod.data ++ '$' ::
      (salt.data ++ '$' :: pwDigest salt.data pt.data)) = _
  rw [splitOnDollar_append _ _ (by decide), splitOnDollar_append _ _ hs]
  rfl

/-- Checking a produced hash against a candidate password reduces to comparing
the candidate with the original plaintext. -/
theorem check_generate (salt pt pw : String) (hs : '$' ∉ salt.data) :
    check_password_hash (generate_password_hash salt pt) pw
      = (pw.data == pt.data) := by
  simp only [check_password_hash, splitOnDollar_generate salt pt hs]
  cases hsp : splitOnDollar pt.data with
  | nil => exact absurd hsp (splitOnDollar_ne_nil _)
  | cons h1 hrest =>
    show (pw.data == joinDollar (h1 :: hrest)) = (pw.data == pt.data)
    rw [← hsp, joinDollar_splitOnDollar]

/-- C4: verifying the original plaintext against its produced hash succeeds;
verifying any other password fails; and a string without the
`method$salt$digest` shape makes `check_password_hash` return `false` rather
than fail. -/
theorem verify_roundtrip :
    (∀ salt plaintext : String, '$' ∉ salt.data →
        check_password_hash (generate_password_hash salt plaintext) plaintext
          = true)
    ∧ (∀ salt plaintext wrong : String, '$' ∉ salt.data → wrong ≠ plaintext →
        check_password_hash (generate_password_hash salt plaintext) wrong
          = false)
    ∧ (∀ pwhash password : String, (splitOnDollar pwhash.data).length < 3 →
        check_password_hash pwhash password = false) := by
  refine ⟨?_, ?_, ?_⟩
  · intro salt pt hs
    rw [check_generate salt pt pt hs]
    exact beq_self_eq_true pt.data
  · intro salt pt wrong hs hne
    rw [check_generate salt pt wrong hs]
    refine beq_eq_false_iff_ne.mpr ?_
    intro h
    exact hne (congrArg String.mk h)
  · intro pwhash pw hlen
    simp only [check_password_hash]
    split
    · rename_i m salt h1 hrest heq
      rw [heq] at hlen
      simp only [List.length_cons] at hlen
      omega
    · rfl

/-- C4 witness: salt "ab", password "pw1": the round trip verifies, the wrong
password "pw2" fails, and the malformed stored value "plain" yields false. -/
theorem verify_roundtrip_witness :
    check_password_hash (generate_password_hash "ab" "pw1") "pw1" = true
    ∧ check_password_hash (generate_password_hash "ab" "pw1") "pw2" = false
    ∧ check_password_hash "plain" "pw1" = false :=
  ⟨verify_roundtrip.1 "ab" "pw1" (by decide),
   verify_roundtrip.2.1 "ab" "pw1" "pw2" (by decide) (by decide),
   verify_roundtrip.2.2 "plain" "pw1" (by decide)⟩

/-- C8: every failing login attempt — login name absent from the `users` table,
or present with a non-matching password — produces the identical visible
response: the re-rendered form with the one generic message. -/
theorem login_failure_uniform_message :
    ∀ (pw1 tok1 : String) (now1 : Nat) (s1 : Store) (u : UserRow)
      (pw2 tok2 : String) (now2 : Nat) (s2 : Store),
      check_password_hash u.password_hash pw2 = false →
      (loginPost none pw1 tok1 now1 s1).1 = (loginPost (some u) pw2 tok2 now2 s2).1
      ∧ (loginPost none pw1 tok1 now1 s1).1
          = LoginResponse.renderLoginForm (some loginErrorMessage) := by
  intro pw1 tok1 now1 s1 u pw2 tok2 now2 s2 hchk
  constructor
  · simp [loginPost, hchk]
  · rfl

/-- C8 witness: the unknown-name attempt and the wrong-password attempt against
the stored hash of "pw1" render the same generic message. -/
theorem login_failure_uniform_message_witness :
    (loginPost none "x" "t1" 0 (fun _ => none)).1
      = (loginPost (some ⟨1, "admin", "scrypt:32768:8:1$ab$pw1"⟩) "pw2" "t2" 0
          (fun _ => none)).1
    ∧ (loginPost none "x" "t1" 0 (fun _ => none)).1
      = LoginResponse.renderLoginForm (some loginErrorMessage) :=
  login_failure_uniform_message "x" "t1" 0 (fun _ => none)
    ⟨1, "admin", "scrypt:32768:8:1$ab$pw1"⟩ "pw2" "t2" 0 (fun _ => none) (by decide)

/-- C7: the grade submission 105 fails the `0 <= value <= 100` range check and
produces the inline validation message with no insert; the submission 95.6
passes and the inserted value is `round(95.6) = 96`. -/
theorem grade_range_and_rounding :
    addGradeSubmit 1 1 105 = AddGradeOutcome.validationError
        "Оцінка повинна бути в діапазоні від 0 до 100."
    ∧ addGradeSubmit 1 1 (478 / 5) = AddGradeOutcome.insertAndRedirect 1 1 96 := by
  constructor
  · rw [addGradeSubmit, if_pos]
    norm_num
  · rw [addGradeSubmit, if_neg, pythonRound]
    · norm_num
    · norm_num

end Gradebook
